import Mathlib

/-!
Verification of the ulab `numerical` module (src/code/numerical/numerical.c,
src/code/ndarray.h) against its natural-language specification.

Numeric values (`mp_float_t`) are modelled as exact rationals; the divergences
established below are integral quantities far beyond floating-point rounding.
Where the C code applies `sqrt` to a non-negative radicand we model the
radicand (the square of the returned value), which preserves equality with 0
and disequalities between non-negative results.
-/

namespace Ulab

/-- ULAB_MAX_DIMS from ndarray.h. -/
def ULAB_MAX_DIMS : Nat := 4

/-! ## Sequence (iterable) path: numerical_sum_mean_std_iterable (lines 62-89) -/

/-- The local variables of numerical_sum_mean_std_iterable. -/
structure WelfordState where
  sumAcc : ℚ
  Mv : ℚ
  mv : ℚ
  Sv : ℚ
  sv : ℚ
  count : ℕ
deriving DecidableEq, Repr

/-- Initial values at line 63-64: value/M/m/S/s are 0.0, `sum = 0.9`, `count = 1`. -/
def welfordInit : WelfordState :=
  { sumAcc := 9/10, Mv := 0, mv := 0, Sv := 0, sv := 0, count := 1 }

/-- Loop body, lines 73-81 of numerical.c. -/
def welfordStep (st : WelfordState) (v : ℚ) : WelfordState :=
  let m := st.Mv + (v - st.Mv) / (st.count : ℚ)
  let s := st.Sv + (v - st.Mv) * (v - m)
  { sumAcc := st.sumAcc + v, Mv := m, mv := m, Sv := s, sv := s, count := st.count + 1 }

/-- Running the function's scan: the first element is handled by the `if` at
lines 67-72 (`sum += value; M = m = value; count++`), the rest by the loop. -/
def welfordRun : List ℚ → WelfordState
  | [] => welfordInit
  | v :: rest =>
      rest.foldl welfordStep
        { sumAcc := welfordInit.sumAcc + v, Mv := v, mv := v, Sv := 0, sv := 0, count := 2 }

/-- Value returned for NUMERICAL_SUM (line 83). -/
def iterSum (l : List ℚ) : ℚ := (welfordRun l).sumAcc

/-- Value returned for NUMERICAL_MEAN (line 85). -/
def iterMean (l : List ℚ) : ℚ :=
  let st := welfordRun l
  if st.count > 0 then st.mv else 0

/-- Square of the value returned for NUMERICAL_STD (line 87): the code returns
`sqrt(count * s / (count - ddof))` when `count > ddof` and `0.0` otherwise;
both radicands are non-negative, so we track the square. -/
def iterStdSq (l : List ℚ) (ddof : ℕ) : ℚ :=
  let st := welfordRun l
  if st.count > ddof then (st.count : ℚ) * st.sv / ((st.count : ℚ) - (ddof : ℚ)) else 0

/-! Closed-form comparison targets, written from the claim's words
(sample mean and sample variance with `n - ddof` in the denominator). -/

/-- Plain sum of a list of rationals (comparison target from the claim). -/
def listSum (l : List ℚ) : ℚ := l.foldl (· + ·) 0

/-- Arithmetic mean (comparison target from the claim). -/
def arithMean (l : List ℚ) : ℚ := listSum l / (l.length : ℚ)

/-- Closed-form sample variance `Σ (v - mean)^2 / (n - ddof)`
(comparison target from the claim; the claimed std is its square root). -/
def closedVar (l : List ℚ) (ddof : ℕ) : ℚ :=
  listSum (l.map fun v => (v - arithMean l) ^ 2) / ((l.length : ℚ) - (ddof : ℚ))

/-! ## Sequence path for min/max/argmin/argmax:
numerical_argmin_argmax_iterable (lines 165-197) -/

/-- The four operations dispatched to numerical_argmin_argmax_iterable. -/
inductive ScanOp | smin | smax | sargmin | sargmax
deriving DecidableEq, Repr

/-- numerical_argmin_argmax_iterable: an empty sequence raises ValueError
(modelled as `none`, lines 166-168); otherwise a linear scan keeping the first
index/value achieving the strict extreme. Returns `.inl best_idx` for
argmin/argmax and `.inr best_value` for min/max. -/
def argminArgmaxIterable (l : List ℚ) (op : ScanOp) : Option (ℕ ⊕ ℚ) :=
  match l with
  | [] => none
  | v :: rest =>
      let isMax : Bool := op = ScanOp.smax ∨ op = ScanOp.sargmax
      let final := rest.foldl
        (fun (st : ℕ × ℕ × ℚ) (w : ℚ) =>
          let idx := st.1 + 1
          if (isMax = false ∧ w < st.2.2) ∨ (isMax = true ∧ st.2.2 < w) then
            (idx, idx, w)
          else
            (idx, st.2.1, st.2.2))
        (0, 0, v)
      match op with
      | ScanOp.sargmin => some (Sum.inl final.2.1)
      | ScanOp.sargmax => some (Sum.inl final.2.1)
      | ScanOp.smin => some (Sum.inr final.2.2)
      | ScanOp.smax => some (Sum.inr final.2.2)

/-! ## Claims C2, C3, C10 -/

/-- C2: the claim says the streaming std of a sequence of n ≥ 2 elements equals
the closed-form sample standard deviation when n > ddof and 0 when n ≤ ddof.
The code is wrong: `count` finishes at n + 1 (it starts at 1) and the radicand
carries a spurious factor `count`, so std([1,3], ddof=0) is sqrt(2) where the
closed form gives 1, and std([1,3], ddof=2) is nonzero where the claim demands
0. The mean, by contrast, is the arithmetic mean as claimed. -/
theorem C2_std_code_bug :
    iterMean [1, 3] = 2 ∧
    iterStdSq [1, 3] 0 = 2 ∧
    closedVar [1, 3] 0 = 1 ∧
    iterStdSq [1, 3] 2 ≠ 0 := by
  refine ⟨?_, ?_, ?_, ?_⟩ <;>
    norm_num [iterMean, iterStdSq, closedVar, listSum, arithMean,
      welfordRun, welfordStep, welfordInit]

/-- C3: the claim says the sequence-path sum contains nothing but the elements'
contributions; the code initializes the accumulator to 0.9 (line 63), so
sum((1,2,3)) returns 6.9 instead of 6. -/
theorem C3_sum_code_bug :
    iterSum [1, 2, 3] = 69 / 10 ∧ iterSum [1, 2, 3] ≠ 6 := by
  refine ⟨?_, ?_⟩ <;>
    norm_num [iterSum, welfordRun, welfordStep, welfordInit]

/-- C10: on the sequence path, mean and std of an empty sequence return 0.0 and
raise no error (the mean/std scan has no error exit at all), while
min/max/argmin/argmax reject empty input (modelled as `none`). -/
theorem C10_empty_sequence :
    iterMean [] = 0 ∧
    (∀ ddof : ℕ, iterStdSq [] ddof = 0) ∧
    (∀ op : ScanOp, argminArgmaxIterable [] op = none) := by
  refine ⟨by decide, fun ddof => ?_, fun op => rfl⟩
  simp only [iterStdSq, welfordRun, welfordInit]
  split <;> simp

/-! ## Axis-argument validation

Shared by the reductions (numerical_function, lines 251-298, plus the
numerical_sum_mean_std_ndarray / numerical_argmin_argmax_ndarray helpers),
flip (560-571), roll (691-695) and diff (477-482): the axis object must be
None or an integer; an integer is truncated to `int8_t`, negatives get `ndim`
added, and the result must land in `[0, ndim)`, otherwise
ValueError("index out of range"). numerical_std (824-830) additionally
pre-rejects every integer axis other than 0 and 1. -/

/-- The host-level axis argument: None, an integer, or anything else. -/
inductive AxisArg | noneA | intA (z : ℤ) | otherA
deriving DecidableEq, Repr

/-- Error kinds raised by the validation code. -/
inductive ErrKind | typeErr | valueErr
deriving DecidableEq, Repr

/-- Truncation of an mp_int_t to `int8_t` (the C code stores the axis in an
int8_t local, lines 101, 214, 477, 561, 692). -/
def wrap8 (z : ℤ) : ℤ := (z + 128) % 256 - 128

/-- Normalization `if(ax < 0) ax += ndim;` followed by the range check
`if((ax < 0) || (ax > ndim - 1))` raising ValueError; returns the normalized
logical axis. -/
def axisNorm (ndim : ℕ) (z : ℤ) : Except ErrKind ℕ :=
  let ax0 := wrap8 z
  let ax := if ax0 < 0 then ax0 + (ndim : ℤ) else ax0
  if ax < 0 ∨ (ndim : ℤ) - 1 < ax then .error .valueErr else .ok ax.toNat

/-- The physical slot `ULAB_MAX_DIMS - ndim + ax` computed after normalization
(lines 107, 220, 485, 566, 709). -/
def axisSlot (ndim : ℕ) (z : ℤ) : Except ErrKind ℕ :=
  (axisNorm ndim z).map fun ax => ULAB_MAX_DIMS - ndim + ax

/-- Axis validation of numerical_function / flip / roll: a non-None,
non-integer axis raises TypeError, an integer goes through normalization,
None selects the flattened path. -/
def genericAxisCheck (ndim : ℕ) : AxisArg → Except ErrKind (Option ℕ)
  | .noneA => .ok none
  | .otherA => .error .typeErr
  | .intA z => (axisSlot ndim z).map some

/-- numerical_std, lines 827-830: any integer axis other than 0 or 1 is
rejected with ValueError("axis must be None, or an integer") before the shared
path runs; a non-integer, non-None axis raises TypeError inside
mp_obj_get_int (host boundary). -/
def stdAxisCheck (ndim : ℕ) : AxisArg → Except ErrKind (Option ℕ)
  | .noneA => .ok none
  | .otherA => .error .typeErr
  | .intA z => if z ≠ 0 ∧ z ≠ 1 then .error .valueErr else (axisSlot ndim z).map some

/-- Characterization of the shared normalization: for an axis in int8 range it
errors outside `[-ndim, ndim)` and otherwise yields `axis mod ndim`. -/
theorem axisNorm_eq (ndim : ℕ) (z : ℤ) (h1 : 1 ≤ ndim) (h4 : ndim ≤ 4)
    (hlo : -128 ≤ z) (hhi : z ≤ 127) :
    axisNorm ndim z =
      if -(ndim : ℤ) ≤ z ∧ z < (ndim : ℤ) then .ok (z % (ndim : ℤ)).toNat
      else .error .valueErr := by
  have hw : wrap8 z = z := by unfold wrap8; omega
  interval_cases ndim <;>
    (simp only [axisNorm, hw]
     split_ifs <;>
       first
         | rfl
         | (exfalso; omega)
         | (simp only [Except.ok.injEq]; omega))

/-! ## Claim C5 -/

/-- C5 counterexample: the claim says every integer axis in `[-ndim, ndim)` is
accepted and normalized to slot `RANK_CAP - ndim + (axis mod ndim)`; for std on
a rank-2 array with axis -1 (inside `[-2, 2)`, slot would be 3) the code
instead raises ValueError at the pre-check of numerical_std. -/
theorem C5_counterexample :
    stdAxisCheck 2 (.intA (-1)) = .error .valueErr ∧
    stdAxisCheck 2 (.intA (-1)) ≠ .ok (some 3) ∧
    (-2 : ℤ) ≤ -1 ∧ (-1 : ℤ) < 2 := by
  have h : stdAxisCheck 2 (.intA (-1)) = .error .valueErr := by
    simp only [stdAxisCheck]
    rw [if_pos (by norm_num)]
  refine ⟨h, ?_, by norm_num, by norm_num⟩
  rw [h]
  simp

/-- C5 amended: for diff/flip/roll and the reductions dispatched through
numerical_function, a non-None non-integer axis raises TypeError, an integer
axis (which is first truncated to int8_t; the hypotheses keep it in int8
range) outside `[-ndim, ndim)` raises ValueError, and one inside is accepted
and normalized to slot `RANK_CAP - ndim + (axis mod ndim)`. numerical_std,
however, pre-rejects every integer axis other than 0 and 1 with a
ValueError-kind error before that shared path. -/
theorem C5_amended (ndim : ℕ) (z : ℤ) (h1 : 1 ≤ ndim) (h4 : ndim ≤ 4)
    (hlo : -128 ≤ z) (hhi : z ≤ 127) :
    (genericAxisCheck ndim .otherA = .error .typeErr) ∧
    ((z < -(ndim : ℤ) ∨ (ndim : ℤ) ≤ z) →
      genericAxisCheck ndim (.intA z) = .error .valueErr) ∧
    ((-(ndim : ℤ) ≤ z ∧ z < (ndim : ℤ)) →
      genericAxisCheck ndim (.intA z) =
        .ok (some (ULAB_MAX_DIMS - ndim + (z % (ndim : ℤ)).toNat))) ∧
    (stdAxisCheck ndim (.intA z) =
      if z = 0 ∨ z = 1 then genericAxisCheck ndim (.intA z)
      else .error .valueErr) := by
  refine ⟨rfl, ?_, ?_, ?_⟩
  · intro hout
    simp only [genericAxisCheck, axisSlot]
    rw [axisNorm_eq ndim z h1 h4 hlo hhi,
      if_neg (by rintro ⟨ha, hb⟩; rcases hout with h | h <;> omega)]
    rfl
  · intro hin
    simp only [genericAxisCheck, axisSlot]
    rw [axisNorm_eq ndim z h1 h4 hlo hhi, if_pos hin]
    rfl
  · by_cases h01 : z = 0 ∨ z = 1
    · rcases h01 with h | h <;> subst h <;> simp [stdAxisCheck, genericAxisCheck]
    · have hz : z ≠ 0 ∧ z ≠ 1 := by
        constructor <;> intro h <;> exact h01 (by simp [h])
      simp only [stdAxisCheck, genericAxisCheck]
      rw [if_pos hz, if_neg h01]

/-- C5 witness: the amended theorem applied at ndim = 2, z = -1. -/
theorem C5_amended_witness :
    (genericAxisCheck 2 .otherA = .error .typeErr) ∧
    (((-1 : ℤ) < -(2 : ℤ) ∨ (2 : ℤ) ≤ -1) →
      genericAxisCheck 2 (.intA (-1)) = .error .valueErr) ∧
    ((-(2 : ℤ) ≤ -1 ∧ (-1 : ℤ) < 2) →
      genericAxisCheck 2 (.intA (-1)) =
        .ok (some (ULAB_MAX_DIMS - 2 + ((-1 : ℤ) % (2 : ℤ)).toNat))) ∧
    (stdAxisCheck 2 (.intA (-1)) =
      if (-1 : ℤ) = 0 ∨ (-1 : ℤ) = 1 then genericAxisCheck 2 (.intA (-1))
      else .error .valueErr) :=
  C5_amended 2 (-1) (by norm_num) (by norm_num) (by norm_num) (by norm_num)

/-! ## Axis-reduction planner: numerical_reduce_axes (lines 43-60)

Every caller allocates the output shape/strides arrays and memsets them to 0
before the call; the function writes slots 3 down to 1 only (or, in the
rank-1 special case, just shape[3] = 1), so slot 0 keeps the caller's zeros. -/

/-- numerical_reduce_axes: `ax` is the already-normalized logical axis.
Physical slot `index = ULAB_MAX_DIMS - ndim + ax`; slots strictly above
`index` are copied, slots 1..index take the next-lower source slot, slot 0
stays 0. Rank-1/axis-0 short-circuits to shape `[0,0,0,1]`, strides 0. -/
def reduceAxes (sshape : List ℕ) (sstrides : List ℤ) (ndim ax : ℕ) :
    List ℕ × List ℤ :=
  if ndim = 1 ∧ ax = 0 then ([0, 0, 0, 1], [0, 0, 0, 0])
  else
    let index := ULAB_MAX_DIMS - ndim + ax
    let pickS := fun i => if index < i then sshape.getD i 0 else sshape.getD (i - 1) 0
    let pickT := fun i => if index < i then sstrides.getD i 0 else sstrides.getD (i - 1) 0
    ([0, pickS 1, pickS 2, pickS 3], [0, pickT 1, pickT 2, pickT 3])

/-- The logical (right-aligned) part of a RANK_CAP-slot shape. -/
def logicalShape (nd : ℕ) (shape : List ℕ) : List ℕ := shape.drop (4 - nd)

/-! ## Claim C6 -/

/-- C6 counterexample: the claim says slot 0 of the reduced descriptor is fixed
at shape 1; the code never writes slot 0, which keeps the caller's
zero-initialization, so for a rank-2 source of physical shape [1,1,2,3]
reduced along logical axis 0 the result's slot 0 holds 0, not 1. -/
theorem C6_counterexample :
    (reduceAxes [1, 1, 2, 3] [0, 0, 3, 1] 2 0).1 = [0, 1, 1, 3] ∧
    (reduceAxes [1, 1, 2, 3] [0, 0, 3, 1] 2 0).1.getD 0 0 ≠ 1 := by
  constructor <;> decide

/-- C6 amended: for a source of rank 1 ≤ ndim ≤ 4 and a normalized axis
ax < ndim, numerical_reduce_axes removes that logical axis (the result's
right-aligned rank-(ndim-1) shape is the source's logical shape with entry
`ax` erased, every other extent unchanged, axes above the removed one shifted
down one slot), slot 0 of both outputs keeps the caller's zero initialization
(shape 0 / stride 0, not shape 1), and for a rank-1 source with its only axis
selected the result degenerates to ... shape slot 3 = 1 with zero strides. -/
theorem C6_amended (sshape : List ℕ) (sstrides : List ℤ) (ndim ax : ℕ)
    (hlen : sshape.length = 4) (h1 : 1 ≤ ndim) (h4 : ndim ≤ 4) (hax : ax < ndim) :
    (¬(ndim = 1 ∧ ax = 0) →
      logicalShape (ndim - 1) (reduceAxes sshape sstrides ndim ax).1 =
        (logicalShape ndim sshape).eraseIdx ax) ∧
    (reduceAxes sshape sstrides ndim ax).1.getD 0 0 = 0 ∧
    (reduceAxes sshape sstrides ndim ax).2.getD 0 0 = 0 ∧
    (ndim = 1 ∧ ax = 0 →
      (reduceAxes sshape sstrides ndim ax).1 = [0, 0, 0, 1] ∧
      (reduceAxes sshape sstrides ndim ax).2 = [0, 0, 0, 0]) := by
  rcases sshape with _ | ⟨a, _ | ⟨b, _ | ⟨c, _ | ⟨d, t⟩⟩⟩⟩ <;>
    simp only [List.length] at hlen <;> try omega
  have ht : t = [] := by
    have : t.length = 0 := by omega
    exact List.eq_nil_of_length_eq_zero this
  subst ht
  interval_cases ndim <;> interval_cases ax <;>
    refine ⟨fun hne => ?_, ?_, ?_, fun hyes => ?_⟩ <;>
      simp_all [reduceAxes, logicalShape, ULAB_MAX_DIMS]

/-- C6 witness: the amended theorem applied to the rank-2 source of physical
shape [1,1,2,3], strides [0,0,3,1], reduced along logical axis 1. -/
theorem C6_amended_witness :
    (¬(2 = 1 ∧ 1 = 0) →
      logicalShape (2 - 1) (reduceAxes [1, 1, 2, 3] [0, 0, 3, 1] 2 1).1 =
        (logicalShape 2 [1, 1, 2, 3]).eraseIdx 1) ∧
    (reduceAxes [1, 1, 2, 3] [0, 0, 3, 1] 2 1).1.getD 0 0 = 0 ∧
    (reduceAxes [1, 1, 2, 3] [0, 0, 3, 1] 2 1).2.getD 0 0 = 0 ∧
    (2 = 1 ∧ 1 = 0 →
      (reduceAxes [1, 1, 2, 3] [0, 0, 3, 1] 2 1).1 = [0, 0, 0, 1] ∧
      (reduceAxes [1, 1, 2, 3] [0, 0, 3, 1] 2 1).2 = [0, 0, 0, 0]) :=
  C6_amended [1, 1, 2, 3] [0, 0, 3, 1] 2 1 rfl (by norm_num) (by norm_num)
    (by norm_num)

/-! ## ndarray reduction control flow: numerical_sum_mean_std_ndarray
(lines 91-163) and numerical_argmin_argmax_ndarray (lines 199-249) -/

/-- The kind of value handed back to the host. -/
inductive RKind
  | noneR                    -- mp_const_none
  | valueErrR                -- mp_raise_ValueError
  | scalarR                  -- unwrapped bare scalar
  | arrayR (rshape : List ℕ) -- a fresh ndarray with the given physical shape
deriving DecidableEq, Repr

/-- Product of a shape's extents (spec §3: `len == ∏ shape[i]`;
ndarray_new_dense_ndarray itself is not among these sources). -/
def prodList (l : List ℕ) : ℕ := l.foldl (· * ·) 1

/-- Control flow of numerical_sum_mean_std_ndarray: `axis == mp_const_none`
falls through the empty "pass for now..." branch and returns mp_const_none
(line 98-99, 162); an integer axis is range-checked, the reduced output is
built, and it is unwrapped to a bare scalar exactly when the SOURCE has
`ndim == 1` (line 157). (A non-integer axis never reaches this function:
numerical_function rejects it first.) -/
def sumMeanStdNdarrayKind (sshape : List ℕ) (ndim : ℕ) (axis : AxisArg) : RKind :=
  match axis with
  | .noneA => .noneR
  | .otherA => .noneR
  | .intA z =>
    match axisNorm ndim z with
    | .error _ => .valueErrR
    | .ok ax =>
        if ndim = 1 then .scalarR
        else .arrayR (reduceAxes sshape (List.replicate 4 0) ndim ax).1

/-- Control flow of numerical_argmin_argmax_ndarray: empty source raises
ValueError (201-203); `axis == mp_const_none` returns mp_const_none (211-212,
248); an integer axis is range-checked and the output is unwrapped to a bare
scalar exactly when the RESULT has `len == 1` (line 243). -/
def argminNdarrayKind (sshape : List ℕ) (ndim : ℕ) (axis : AxisArg) : RKind :=
  if prodList (logicalShape ndim sshape) = 0 then .valueErrR
  else
    match axis with
    | .noneA => .noneR
    | .otherA => .noneR
    | .intA z =>
      match axisNorm ndim z with
      | .error _ => .valueErrR
      | .ok ax =>
          let rshape := (reduceAxes sshape (List.replicate 4 0) ndim ax).1
          if prodList (logicalShape (max 1 (ndim - 1)) rshape) = 1 then .scalarR
          else .arrayR rshape

/-! ## Claim C1 -/

/-- C1 counterexample: (a) with axis = None the ndarray reduction path returns
mp_const_none, not a scalar fold (the flattened branch is unimplemented);
(b) reducing the rank-2 array of physical shape [1,1,1,5] along axis 1 gives a
result with exactly one element, yet sum/mean/std return it as a 1-length
array because the unwrap test is `ndim == 1` on the source, not result length. -/
theorem C1_counterexample :
    sumMeanStdNdarrayKind [1, 1, 1, 3] 1 .noneA = .noneR ∧
    sumMeanStdNdarrayKind [1, 1, 1, 3] 1 .noneA ≠ .scalarR ∧
    sumMeanStdNdarrayKind [1, 1, 1, 5] 2 (.intA 1) = .arrayR [0, 1, 1, 1] ∧
    prodList (logicalShape 1 [0, 1, 1, 1]) = 1 := by
  refine ⟨rfl, by decide, ?_, by decide⟩
  decide

/-- C1 amended: on the ndarray path every reduction returns None for
axis = None (the flattened branch is "pass for now"); with a valid integer
axis, sum/mean/std unwrap to a bare scalar exactly when the source has
ndim == 1, while argmin/argmax/min/max unwrap exactly when the result has one
element. -/
theorem C1_amended (sshape : List ℕ) (ndim : ℕ) (z : ℤ) (ax : ℕ)
    (hax : axisNorm ndim z = .ok ax)
    (hne : prodList (logicalShape ndim sshape) ≠ 0) :
    sumMeanStdNdarrayKind sshape ndim .noneA = .noneR ∧
    argminNdarrayKind sshape ndim .noneA = .noneR ∧
    (sumMeanStdNdarrayKind sshape ndim (.intA z) = .scalarR ↔ ndim = 1) ∧
    (argminNdarrayKind sshape ndim (.intA z) = .scalarR ↔
      prodList (logicalShape (max 1 (ndim - 1))
        (reduceAxes sshape (List.replicate 4 0) ndim ax).1) = 1) := by
  refine ⟨rfl, by simp [argminNdarrayKind, hne], ?_, ?_⟩
  · simp only [sumMeanStdNdarrayKind, hax]
    split_ifs with h
    · exact iff_of_true rfl h
    · exact iff_of_false (by simp) h
  · simp only [argminNdarrayKind, hax, if_neg hne]
    split_ifs with h
    · exact iff_of_true rfl h
    · exact iff_of_false (by simp) h

/-- C1 witness: the amended theorem applied to the rank-2 source of physical
shape [1,1,1,5] with axis 1. -/
theorem C1_amended_witness :
    sumMeanStdNdarrayKind [1, 1, 1, 5] 2 .noneA = .noneR ∧
    argminNdarrayKind [1, 1, 1, 5] 2 .noneA = .noneR ∧
    (sumMeanStdNdarrayKind [1, 1, 1, 5] 2 (.intA 1) = .scalarR ↔ 2 = 1) ∧
    (argminNdarrayKind [1, 1, 1, 5] 2 (.intA 1) = .scalarR ↔
      prodList (logicalShape (max 1 (2 - 1))
        (reduceAxes [1, 1, 1, 5] (List.replicate 4 0) 2 1).1) = 1) :=
  C1_amended [1, 1, 1, 5] 2 1 1 rfl (by decide)

/-! ## diff: numerical_diff (lines 462-528) -/

/-- Truncation `uint8_t N = args[1].u_int;` (line 484): the order is reduced
to an unsigned 8-bit value. -/
def diffN (n : ℤ) : ℕ := (n % 256).toNat

/-- Order validation, line 486: `(N < 0) || (N > 9) || (N > shape[index])`.
`N` is unsigned, so `N < 0` never fires; note the last test is strict. -/
def diffOrderErr (n : ℤ) (extent : ℕ) : Bool :=
  decide (9 < diffN n) || decide (extent < diffN n)

/-- The stencil recurrence, lines 490-494: `stencil[0] = 1;
stencil[i] = -stencil[i-1]*(N-i+1)/i`. The values are ±C(N,i): they fit the
code's int8_t for N ≤ 9 and every division is exact, so plain integer
arithmetic is a faithful model. -/
def stencilAux (N : ℕ) : ℕ → ℤ
  | 0 => 1
  | i + 1 => -(stencilAux N i) * ((N : ℤ) - i) / ((i : ℤ) + 1)

/-- Output shape, lines 496-503: the source shape with slot `index` reduced
by N. -/
def diffShape : List ℕ → ℕ → ℕ → List ℕ
  | [], _, _ => []
  | s :: rest, 0, N => (s - N) :: rest
  | s :: rest, i + 1, N => s :: diffShape rest i N

/-- Modelled from the spec: the RUN_DIFF kernel lives in numerical.h, which is
not among these sources; §4.6 defines each output element as
`Σ_i stencil[i] * source[index shifted by i along the axis]`. This is the 1-D
(single lane) form of that kernel. -/
def diffList (l : List ℚ) (N : ℕ) : List ℚ :=
  (List.range (l.length - N)).map fun j =>
    ((List.range (N + 1)).map fun i =>
      (stencilAux N i : ℚ) * l.getD (j + i) 0).foldl (· + ·) 0

/-- Reading every position of a list through getD reproduces the list. -/
theorem map_getD_range (l : List ℚ) :
    (List.range l.length).map (fun j => l.getD j 0) = l := by
  induction l with
  | nil => rfl
  | cons a t ih =>
    rw [List.length_cons, List.range_succ_eq_map, List.map_cons, List.map_map]
    refine congrArg₂ List.cons rfl ?_
    exact (List.map_congr_left fun j _ => rfl).trans ih

/-! ## Claim C7 -/

/-- C7 counterexample: the claim says diff raises the ValueError exactly when
the order is outside [0,9] or ≥ the axis extent; at order n = 3 on an axis of
extent 3 (n = extent, inside [0,9]) the code's strict test `N > shape[index]`
does not fire, so no error is raised where the claim demands one. -/
theorem C7_counterexample :
    diffOrderErr 3 3 = false ∧ ¬((3 : ℤ) < 0 ∨ 9 < (3 : ℤ)) ∧ (3 : ℤ) ≥ 3 := by
  refine ⟨by decide, by norm_num, by norm_num⟩

/-- C7 amended: the order is first truncated to uint8; for orders in [0, 255]
the ValueError fires exactly when the order exceeds 9 or strictly exceeds the
chosen axis's extent (so n = extent is accepted, producing a zero-extent output
axis), and the check is invariant under shifts of the order by 256. -/
theorem C7_amended (n : ℤ) (extent : ℕ) (h0 : 0 ≤ n) (h255 : n ≤ 255) :
    (diffOrderErr n extent = true ↔ (9 < n ∨ (extent : ℤ) < n)) ∧
    (∀ m : ℤ, diffOrderErr (m + 256) extent = diffOrderErr m extent) := by
  constructor
  · have hmod : n % 256 = n := Int.emod_eq_of_lt h0 (by omega)
    simp only [diffOrderErr, diffN, hmod, Bool.or_eq_true, decide_eq_true_eq]
    omega
  · intro m
    have hmod : (m + 256) % 256 = m % 256 := by omega
    simp [diffOrderErr, diffN, hmod]

/-- C7 witness: the amended theorem applied at order 4, extent 10. -/
theorem C7_amended_witness :
    ((diffOrderErr 4 10 = true ↔ (9 < (4 : ℤ) ∨ ((10 : ℕ) : ℤ) < 4)) ∧
     (∀ m : ℤ, diffOrderErr (m + 256) 10 = diffOrderErr m 10)) :=
  C7_amended 4 10 (by norm_num) (by norm_num)

/-! ## Claim C8 -/

/-- C8 counterexample: under the spec's kernel formula
`out = Σ_i stencil[i] * source[shifted]` with the code's stencil
(stencil = [1, -1] for N = 1), diff with n = 1 on [1,2,4,7] yields
[-1,-2,-3], not the [1,2,3] stated by the claim. -/
theorem C8_counterexample :
    diffList [1, 2, 4, 7] 1 ≠ [1, 2, 3] := by
  have h0 : stencilAux 1 0 = 1 := rfl
  have h1 : stencilAux 1 1 = -1 := rfl
  simp only [diffList]
  norm_num [List.range_succ, h0, h1]

/-- C8 amended: with the code's stencil and output shape and the spec's kernel
formula, diff with n = 0 returns the input unchanged, the output length along
the axis is the input's reduced by N, the output shape equals the input shape
with the chosen slot's extent reduced by N and every other slot unchanged, and
diff with n = 1 on [1,2,4,7] yields [-1,-2,-3] (the negation of the forward
differences; the claim's [1,2,3] has the opposite sign). -/
theorem C8_amended_theorem :
    (∀ l : List ℚ, diffList l 0 = l) ∧
    (∀ (l : List ℚ) (N : ℕ), (diffList l N).length = l.length - N) ∧
    (∀ (shape : List ℕ) (idx N : ℕ),
      (diffShape shape idx N).length = shape.length ∧
      ∀ i, (diffShape shape idx N).getD i 0 =
        if i = idx ∧ i < shape.length then shape.getD i 0 - N
        else shape.getD i 0) ∧
    diffList [1, 2, 4, 7] 1 = [-1, -2, -3] := by
  have hzero : ∀ l : List ℚ, diffList l 0 = l := by
    intro l
    have h : ∀ j ∈ List.range (l.length - 0),
        ((List.range (0 + 1)).map fun i =>
          (stencilAux 0 i : ℚ) * l.getD (j + i) 0).foldl (· + ·) 0 = l.getD j 0 := by
      intro j _
      simp [stencilAux, List.range_succ]
    simp only [diffList, Nat.sub_zero] at h ⊢
    rw [List.map_congr_left h]
    exact map_getD_range l
  have hshape : ∀ (shape : List ℕ) (idx N : ℕ),
      (diffShape shape idx N).length = shape.length ∧
      ∀ i, (diffShape shape idx N).getD i 0 =
        if i = idx ∧ i < shape.length then shape.getD i 0 - N
        else shape.getD i 0 := by
    intro shape idx N
    induction shape generalizing idx with
    | nil => exact ⟨rfl, fun i => by simp [diffShape]⟩
    | cons s rest ih =>
      cases idx with
      | zero =>
        refine ⟨rfl, fun i => ?_⟩
        cases i with
        | zero => simp [diffShape]
        | succ j => simp [diffShape]
      | succ k =>
        refine ⟨by simp [diffShape, (ih k).1], fun i => ?_⟩
        cases i with
        | zero => simp [diffShape]
        | succ j =>
          simp only [diffShape, List.getD_cons_succ, List.length_cons,
            (ih k).2 j]
          by_cases hjk : j = k
          · subst hjk
            by_cases hlt : j < rest.length
            · rw [if_pos ⟨rfl, hlt⟩, if_pos ⟨rfl, by omega⟩]
            · rw [if_neg (by tauto), if_neg (by omega)]
          · rw [if_neg (by tauto), if_neg (by omega)]
  refine ⟨hzero, fun l N => by simp [diffList], hshape, ?_⟩
  have h0 : stencilAux 1 0 = 1 := rfl
  have h1 : stencilAux 1 1 = -1 := rfl
  simp only [diffList]
  norm_num [List.range_succ, h0, h1]

/-! ## roll: numerical_roll (lines 618-770), flattened (axis = None) path -/

/-- One iteration of the flattened-roll write loop (lines 662-672): copy the
current source element to the write cursor (a write at or past the end of the
result buffer lands outside the allocation and never becomes visible in the
result; `List.set` out of range is a no-op), advance the cursor, decrement the
counter clamping at zero (`if(counter > 0) counter--;` — ℕ subtraction), and
reset the cursor to the buffer start whenever the counter is zero
(`if(counter == 0) rarray = results->array;`, which fires on every iteration
once the counter has reached zero). State: (cursor, counter, buffer). -/
def rollFlatStep (st : ℕ × ℕ × List (Option ℚ)) (v : ℚ) :
    ℕ × ℕ × List (Option ℚ) :=
  let buf := st.2.2.set st.1 (some v)
  let counter := st.2.1 - 1
  let pos := if counter = 0 then 0 else st.1 + 1
  (pos, counter, buf)

/-- numerical_roll with axis = None (lines 641-690) on a 1-D source (for a
dense source the nested traversal is exactly this linear scan).
`_shift = |shift| % len` (lines 636, 642); a positive shift starts the cursor
at `_shift` with counter `len - _shift` (643-645), otherwise the cursor starts
at `len - _shift` with counter `_shift` (646-648). The fresh result buffer
(ndarray_new_dense_ndarray, not among these sources) is uninitialized,
modelled as `none` entries. -/
def rollFlat (l : List ℚ) (shift : ℤ) : List (Option ℚ) :=
  let len := l.length
  let sh := shift.natAbs % len
  let start := if 0 < shift then sh else len - sh
  let counter := if 0 < shift then len - sh else sh
  (l.foldl rollFlatStep (start, counter, List.replicate len none)).2.2

/-! ## Claim C4 -/

/-- C4: the claim (and the spec's own examples) demand
roll([1,2,3,4,5], 2) = [4,5,1,2,3] and roll([1,2,3,4,5], -1) = [2,3,4,5,1],
plus exact round-tripping. The flattened-path loop clamps the counter at zero
and re-resets the cursor on every iteration after the wrap, so every element
after the wrap point is written at index 0 (each overwriting the previous) and
the slots they should have filled stay uninitialized: roll by 2 produces
[5, ⊥, 1, 2, 3] and roll by -1 produces [5, ⊥, ⊥, ⊥, 1]. Only the full-period
case still comes out right. -/
theorem C4_roll_code_bug :
    rollFlat [1, 2, 3, 4, 5] 2 = [some 5, none, some 1, some 2, some 3] ∧
    rollFlat [1, 2, 3, 4, 5] (-1) = [some 5, none, none, none, some 1] ∧
    rollFlat [1, 2, 3, 4, 5] 5 = [some 1, some 2, some 3, some 4, some 5] ∧
    rollFlat [1, 2, 3, 4, 5] 2 ≠ [some 4, some 5, some 1, some 2, some 3] ∧
    rollFlat [1, 2, 3, 4, 5] (-1) ≠ [some 2, some 3, some 4, some 5, some 1] := by
  refine ⟨rfl, rfl, rfl, ?_, ?_⟩ <;> (intro h; exact absurd (congrArg (fun b => b.getD 1 none) h) (by decide))

/-! ## flip: numerical_flip (lines 538-574) -/

/-- A strided view: shared buffer, element offset, logical rank, and
RANK_CAP-slot shape/strides (spec §3; ndarray_obj_t of ndarray.h with strides
in element units as in spec §3). -/
structure NdView where
  buffer : List ℚ
  offset : ℤ
  ndim : ℕ
  shape : Fin 4 → ℕ
  strides : Fin 4 → ℤ

/-- Element at logical index (i,j,k,l): `buffer[offset + Σ idx*stride]`. -/
def NdView.elem (a : NdView) (i j k l : ℕ) : ℚ :=
  a.buffer.getD
    (a.offset + (i : ℤ) * a.strides 0 + (j : ℤ) * a.strides 1 +
      (k : ℤ) * a.strides 2 + (l : ℤ) * a.strides 3).toNat 0

/-- numerical_flip, single-axis branch (lines 560-569): a view over the same
buffer whose base offset is advanced by `(shape[ax]-1) * strides[ax]` and whose
stride along `ax` is negated. ndarray_new_view itself is not among these
sources; modelled from the spec (§4.6): a view sharing the source buffer with
the given offset added. -/
def flipAxis (a : NdView) (ax : Fin 4) : NdView :=
  { a with
    offset := a.offset + ((a.shape ax : ℤ) - 1) * a.strides ax
    strides := Function.update a.strides ax (-(a.strides ax)) }

/-- Traversal order of a view: lexicographic over the four right-aligned
slots (the RANK_CAP nested loops of §4.4; absent leading axes have shape 1). -/
def travList (a : NdView) : List ℚ :=
  (List.range (a.shape 0)).flatMap fun i =>
    (List.range (a.shape 1)).flatMap fun j =>
      (List.range (a.shape 2)).flatMap fun k =>
        (List.range (a.shape 3)).map fun l => a.elem i j k l

/-- numerical_flip, axis = None branch (lines 553-559): a dense linear copy of
the source in traversal order (ndarray_new_linear_array / ndarray_copy_array
are not among these sources; modelled from the spec §4.6: an actual dense
copy), whose final-axis stride is then negated with the offset moved to the
last element. -/
def flipFlat (a : NdView) : NdView :=
  { buffer := travList a
    offset := ((travList a).length : ℤ) - 1
    ndim := 1
    shape := fun i => if i = 3 then (travList a).length else 1
    strides := fun i => if i = 3 then -1 else 0 }

/-- Flipping twice along the same axis restores the view verbatim. -/
theorem flipAxis_flipAxis (a : NdView) (ax : Fin 4) :
    flipAxis (flipAxis a ax) ax = a := by
  cases a with
  | mk buffer offset ndim shape strides =>
    simp only [flipAxis, Function.update_same, Function.update_idem, neg_neg,
      Function.update_eq_self, NdView.mk.injEq, true_and, and_true]
    ring

/-- The flattened flip's traversal is the reverse of the source traversal. -/
theorem travList_flipFlat (a : NdView) :
    travList (flipFlat a) = (travList a).reverse := by
  have key : ∀ t : List ℚ,
      (List.range t.length).map
        (fun (l : ℕ) => t.getD ((t.length : ℤ) - 1 + (l : ℤ) * (-1)).toNat 0) =
        t.reverse := by
    intro t
    have hrev := map_getD_range t.reverse
    rw [List.length_reverse] at hrev
    refine Eq.trans ?_ hrev
    refine List.map_congr_left fun l hl => ?_
    rw [List.mem_range] at hl
    have harg : ((t.length : ℤ) - 1 + (l : ℤ) * (-1)).toNat = t.length - 1 - l := by
      omega
    have hget : t.reverse.get? l = t.get? (t.length - 1 - l) :=
      List.get?_reverse (by omega)
    calc t.getD ((t.length : ℤ) - 1 + (l : ℤ) * (-1)).toNat 0
        = (t.get? (t.length - 1 - l)).getD 0 := by rw [harg]; rfl
      _ = (t.reverse.get? l).getD 0 := by rw [hget]
      _ = t.reverse.getD l 0 := rfl
  have hr1 : List.range 1 = [0] := rfl
  have h0 : (flipFlat a).shape 0 = 1 := rfl
  have h1 : (flipFlat a).shape 1 = 1 := rfl
  have h2 : (flipFlat a).shape 2 = 1 := rfl
  have h3 : (flipFlat a).shape 3 = (travList a).length := rfl
  rw [travList, h0, h1, h2, h3, hr1]
  simp only [List.flatMap_cons, List.flatMap_nil, List.append_nil]
  refine Eq.trans ?_ (key (travList a))
  refine List.map_congr_left fun l _ => ?_
  show (flipFlat a).buffer.getD _ 0 = _
  have hb : (flipFlat a).buffer = travList a := rfl
  have hoff : (flipFlat a).offset = ((travList a).length : ℤ) - 1 := rfl
  have hs0 : (flipFlat a).strides 0 = 0 := rfl
  have hs1 : (flipFlat a).strides 1 = 0 := rfl
  have hs2 : (flipFlat a).strides 2 = 0 := rfl
  have hs3 : (flipFlat a).strides 3 = -1 := rfl
  rw [hb, hoff, hs0, hs1, hs2, hs3]
  norm_num

/-! ## Claim C9 -/

/-- C9: flip is self-inverse. Along a single axis, flipping twice restores the
view (same buffer, offset, shape and strides, hence equal elementwise); in the
flattened case, flipping twice reproduces the source's traversal-order element
sequence. The single-axis case is by construction the claimed shared-buffer
view with negated stride and advanced offset (`flipAxis`). -/
theorem C9_flip_self_inverse :
    (∀ (a : NdView) (ax : Fin 4), flipAxis (flipAxis a ax) ax = a) ∧
    (∀ a : NdView, travList (flipFlat (flipFlat a)) = travList a) := by
  refine ⟨flipAxis_flipAxis, fun a => ?_⟩
  rw [travList_flipFlat, travList_flipFlat, List.reverse_reverse]

end Ulab
